import Mathlib

/-!
Shallow embedding of the `go-wire` message codec (bsv-blockchain/go-wire).

Bytes are modelled as `Nat` (wire bytes are always `< 256` when produced by the
encoders here); byte streams are `List Nat`.  Readers are functions
`List Nat → Except CodecError (α × List Nat)` returning the parsed value and the
remaining stream, mirroring Go `io.Reader` consumption.  Writers produce the
list of bytes written.  Go's process-wide excessive-block-size variable `ebs`
(set via `SetLimits`) is threaded as an explicit parameter, and the opaque
collaborators (the double-hash function, the external-handler registry, the
UTF-8 validity check of `unicode/utf8`) are parameters of the framing
functions.
-/

namespace Wire

/-- Errors of the codec: I/O failures propagated from the byte source/sink,
and protocol errors (`MessageError` in Go, created by `messageError(f, str)`)
carrying the operation name and a human-readable detail.  Dynamic values
interpolated by `fmt.Sprintf` in Go are elided from the detail text. -/
inductive CodecError where
  | eof : CodecError
  | shortWrite : CodecError
  | generic (msg : String) : CodecError
  | protocol (op : String) (detail : String) : CodecError
  deriving DecidableEq, Repr

/-- `messageError` from error.go: wraps an operation name and description into
a protocol-level `MessageError`. -/
def messageError (op detail : String) : CodecError := CodecError.protocol op detail

/-- Whether an error is a protocol (`MessageError`) failure. -/
def CodecError.isProtocol : CodecError → Bool
  | .protocol _ _ => true
  | _ => false

/-- Whether a parse result failed with a protocol (`MessageError`) failure. -/
def isProtocolFailure {α : Type} : Except CodecError α → Bool
  | .error e => e.isProtocol
  | .ok _ => false

/-- `MessageEncoding` from message.go; only `BaseEncoding` exists. -/
inductive MessageEncoding where
  | base : MessageEncoding
  deriving DecidableEq, Repr

/-- Little-endian encoding of `v` into `w` bytes (the byte layout used by
`writeElement` for fixed-width integers; multi-byte integers are
little-endian on the wire). -/
def toLE : Nat → Nat → List Nat
  | 0, _ => []
  | w + 1, v => v % 256 :: toLE w (v / 256)

/-- Little-endian decoding of a byte list into a natural number (the byte
layout used by `readElement` for fixed-width integers). -/
def fromLE : List Nat → Nat
  | [] => 0
  | b :: bs => b + 256 * fromLE bs

theorem toLE_length (w v : Nat) : (toLE w v).length = w := by
  induction w generalizing v with
  | zero => rfl
  | succ n ih => simp [toLE, ih]

theorem fromLE_toLE (w v : Nat) (h : v < 256 ^ w) : fromLE (toLE w v) = v := by
  induction w generalizing v with
  | zero => simp [pow_zero] at h; simp [toLE, fromLE, h]
  | succ n ih =>
      have hdiv : v / 256 < 256 ^ n := by
        rw [Nat.div_lt_iff_lt_mul (by norm_num)]
        calc v < 256 ^ (n + 1) := h
        _ = 256 ^ n * 256 := by ring
      simp [toLE, fromLE, ih _ hdiv]
      omega

/-- `io.ReadFull` over a byte stream: reads exactly `n` bytes or fails. -/
def readBytes (n : Nat) (r : List Nat) : Except CodecError (List Nat × List Nat) :=
  if n ≤ r.length then .ok (r.take n, r.drop n) else .error .eof

theorem readBytes_append (b rest : List Nat) :
    readBytes b.length (b ++ rest) = .ok (b, rest) := by
  simp [readBytes, List.take_append, List.drop_append]

/-- `readElement` for an unsigned little-endian integer of `w` bytes. -/
def readUIntLE (w : Nat) (r : List Nat) : Except CodecError (Nat × List Nat) :=
  match readBytes w r with
  | .error e => .error e
  | .ok (b, rest) => .ok (fromLE b, rest)

theorem readUIntLE_toLE (w v : Nat) (rest : List Nat) (h : v < 256 ^ w) :
    readUIntLE w (toLE w v ++ rest) = .ok (v, rest) := by
  have hl := toLE_length w v
  simp [readUIntLE, hl ▸ readBytes_append (toLE w v) rest, fromLE_toLE w v h]

/-- Modelled from the spec: `ReadVarInt` (common.go, absent from src/).  Reads
the 1-byte marker and then the corresponding little-endian width: values below
0xfd stand for themselves, marker 0xfd is followed by 2 bytes, 0xfe by 4
bytes, 0xff by 8 bytes.  Canonical (minimal) encoding is not required. -/
def ReadVarInt (pver : Nat) (r : List Nat) : Except CodecError (Nat × List Nat) :=
  match r with
  | [] => .error .eof
  | d :: rest =>
      if d = 0xff then readUIntLE 8 rest
      else if d = 0xfe then readUIntLE 4 rest
      else if d = 0xfd then readUIntLE 2 rest
      else .ok (d, rest)

/-- Modelled from the spec: `WriteVarInt` (common.go, absent from src/).
Values below 0xfd as a single byte, values up to 0xffff as 0xfd plus 2 bytes,
up to 0xffffffff as 0xfe plus 4 bytes, larger as 0xff plus 8 bytes. -/
def WriteVarInt (pver v : Nat) : List Nat :=
  if v < 0xfd then [v]
  else if v ≤ 0xffff then 0xfd :: toLE 2 v
  else if v ≤ 0xffffffff then 0xfe :: toLE 4 v
  else 0xff :: toLE 8 v

theorem ReadVarInt_WriteVarInt (pver v : Nat) (rest : List Nat) (h : v < 2 ^ 64) :
    ReadVarInt pver (WriteVarInt pver v ++ rest) = .ok (v, rest) := by
  unfold WriteVarInt
  by_cases h1 : v < 0xfd
  · have e1 : v ≠ 0xff := by omega
    have e2 : v ≠ 0xfe := by omega
    have e3 : v ≠ 0xfd := by omega
    simp [h1, ReadVarInt, e1, e2, e3]
  · by_cases h2 : v ≤ 0xffff
    · have : v < 256 ^ 2 := by norm_num; omega
      simp [h1, h2, ReadVarInt, readUIntLE_toLE 2 v rest this]
    · by_cases h3 : v ≤ 0xffffffff
      · have : v < 256 ^ 4 := by norm_num; omega
        simp [h1, h2, h3, ReadVarInt, readUIntLE_toLE 4 v rest this]
      · have : v < 256 ^ 8 := by norm_num at h ⊢; omega
        simp [h1, h2, h3, ReadVarInt, readUIntLE_toLE 8 v rest this]

/-- `CommandSize` from message.go: fixed size of a command in the header. -/
def CommandSize : Nat := 12

/-- `MessageHeaderSize` from message.go: magic 4 + command 12 + length 4 +
checksum 4. -/
def MessageHeaderSize : Nat := 24

/-- `maxMessagePayload()` from message.go, with the process-wide excessive
block size `ebs` (set via `SetLimits`, default 32000000) made an explicit
parameter: `((ebs / 1000000) * 1024 * 1024) * 2`. -/
def maxMessagePayload (ebs : Nat) : Nat :=
  ebs / 1000000 * 1024 * 1024 * 2

/-- Modelled from the spec: `MaxInvPerMsg` (msg_inv.go, absent from src/);
the maximum inventory vectors per message, documented as 50,000 in
msg_not_found.go. -/
def MaxInvPerMsg : Nat := 50000

/-- `MaxAssociationIDLen` from stream_type.go. -/
def MaxAssociationIDLen : Nat := 129

/-- Modelled from the spec: `BIP0031Version` (protocol.go, absent from src/).
The ping/pong nonce was added only for versions strictly AFTER this one.  The
numeric value follows the upstream protocol; the claims here depend only on
comparisons against it. -/
def BIP0031Version : Nat := 60000

/-- Modelled from the spec: `BIP0037Version` (protocol.go, absent from src/),
the version gate consulted by merkleblock.  The claims here depend only on
comparisons against it. -/
def BIP0037Version : Nat := 70001

/-- Modelled from the spec: `ProtocolVersion` (protocol.go, absent from
src/), the latest supported protocol version; any value above
`BIP0031Version` behaves identically for the claims proved here. -/
def ProtocolVersion : Nat := 70016

/-- Modelled from the spec: `ReadVarBytes` (common.go, absent from src/).
Reads the varint length, fails with a protocol error naming the field if the
declared length exceeds `maxAllowed` (before reading the data bytes), then
reads exactly that many bytes. -/
def ReadVarBytes (pver maxAllowed : Nat) (fieldName : String) (r : List Nat) :
    Except CodecError (List Nat × List Nat) :=
  match ReadVarInt pver r with
  | .error e => .error e
  | .ok (count, rest) =>
      if count > maxAllowed then
        .error (messageError "ReadVarBytes" fieldName)
      else readBytes count rest

/-- Modelled from the spec: `WriteVarBytes` (common.go, absent from src/):
varint length prefix followed by the raw bytes. -/
def WriteVarBytes (pver : Nat) (b : List Nat) : List Nat :=
  WriteVarInt pver b.length ++ b

/-- Modelled from the spec: `ReadVarString` (common.go, absent from src/).
Reads the varint length, fails with a protocol error if it exceeds the
absolute message-payload ceiling derived from `ebs`, then reads the raw
bytes (no UTF-8 validation). -/
def ReadVarString (ebs pver : Nat) (r : List Nat) : Except CodecError (List Nat × List Nat) :=
  match ReadVarInt pver r with
  | .error e => .error e
  | .ok (count, rest) =>
      if count > maxMessagePayload ebs then
        .error (messageError "ReadVarString" "variable length string is too long")
      else readBytes count rest

/-- Modelled from the spec: `WriteVarString` (common.go, absent from src/):
varint length prefix followed by the string bytes. -/
def WriteVarString (pver : Nat) (s : List Nat) : List Nat :=
  WriteVarInt pver s.length ++ s

theorem ReadVarBytes_WriteVarBytes (pver maxAllowed : Nat) (f : String)
    (b rest : List Nat) (hle : b.length ≤ maxAllowed) (hw : b.length < 2 ^ 64) :
    ReadVarBytes pver maxAllowed f (WriteVarBytes pver b ++ rest) = .ok (b, rest) := by
  simp only [WriteVarBytes, List.append_assoc]
  simp [ReadVarBytes, ReadVarInt_WriteVarInt pver b.length (b ++ rest) hw,
    Nat.not_lt.mpr hle, readBytes_append]

theorem ReadVarString_WriteVarString (ebs pver : Nat) (s rest : List Nat)
    (hle : s.length ≤ maxMessagePayload ebs) (hw : s.length < 2 ^ 64) :
    ReadVarString ebs pver (WriteVarString pver s ++ rest) = .ok (s, rest) := by
  simp only [WriteVarString, List.append_assoc]
  simp [ReadVarString, ReadVarInt_WriteVarInt pver s.length (s ++ rest) hw,
    Nat.not_lt.mpr hle, readBytes_append]

/-- `MsgPong` (pong message): a single uint64 nonce.  Added only for protocol
versions strictly AFTER `BIP0031Version`. -/
structure MsgPong where
  Nonce : Nat
  deriving DecidableEq, Repr

/-- `MsgPong.BsvEncode`: the version gate uses `<=` deliberately (BIP0031 was
defined as AFTER the version); on success writes the nonce as 8 little-endian
bytes. -/
def MsgPong.BsvEncode (msg : MsgPong) (pver : Nat) (enc : MessageEncoding) :
    Except CodecError (List Nat) :=
  if pver ≤ BIP0031Version then
    .error (messageError "MsgPong.BsvEncode" "pong message invalid for protocol version")
  else .ok (toLE 8 msg.Nonce)

/-- `MsgPong.Bsvdecode`, in Go receiver style: takes the receiver's prior
state and returns the resulting receiver state, the remaining stream, and the
error if any.  The version gate (again `<=`) fails before `readElement` is
reached, so on that path the receiver and the stream are untouched. -/
def MsgPong.Bsvdecode (msg : MsgPong) (r : List Nat) (pver : Nat) (enc : MessageEncoding) :
    MsgPong × List Nat × Option CodecError :=
  if pver ≤ BIP0031Version then
    (msg, r, some (messageError "MsgPong.Bsvdecode" "pong message invalid for protocol version"))
  else
    match readBytes 8 r with
    | .error e => (msg, r, some e)
    | .ok (b, rest) => ({ Nonce := fromLE b }, rest, none)

/-- `MsgPong.MaxPayloadLength`: 0 at or below `BIP0031Version`, 8 above. -/
def MsgPong.MaxPayloadLength (msg : MsgPong) (pver : Nat) : Nat :=
  if pver > BIP0031Version then 8 else 0

/-- `MsgPong.Command`. -/
def MsgPong.CommandStr (msg : MsgPong) : String := "pong"

/-- `InvVect` (inv_vect.go, record layout from the spec: a uint32 type and a
32-byte hash, 36 bytes on the wire). -/
structure InvVect where
  InvType : Nat
  Hash : List Nat
  deriving DecidableEq, Repr

/-- Modelled from the spec: `readInvVect` (msg_inv.go helpers, absent from
src/): reads the uint32 type then the 32-byte hash. -/
def readInvVect (pver : Nat) (r : List Nat) : Except CodecError (InvVect × List Nat) :=
  match readUIntLE 4 r with
  | .error e => .error e
  | .ok (t, r1) =>
      match readBytes 32 r1 with
      | .error e => .error e
      | .ok (h, r2) => .ok ({ InvType := t, Hash := h }, r2)

/-- Modelled from the spec: `writeInvVect` (msg_inv.go helpers, absent from
src/): writes the uint32 type then the 32-byte hash. -/
def writeInvVect (pver : Nat) (iv : InvVect) : List Nat :=
  toLE 4 iv.InvType ++ iv.Hash

theorem readInvVect_writeInvVect (pver : Nat) (iv : InvVect) (rest : List Nat)
    (ht : iv.InvType < 2 ^ 32) (hh : iv.Hash.length = 32) :
    readInvVect pver (writeInvVect pver iv ++ rest) = .ok (iv, rest) := by
  have h4 : iv.InvType < 256 ^ 4 := by norm_num at ht ⊢; omega
  simp only [writeInvVect, List.append_assoc]
  simp [readInvVect, readUIntLE_toLE 4 iv.InvType _ h4, hh ▸ readBytes_append iv.Hash rest]

/-- `MsgNotFound` (msg_not_found.go): a bounded list of inventory vectors. -/
structure MsgNotFound where
  InvList : List InvVect
  deriving DecidableEq, Repr

/-- `MsgNotFound.AddInvVect`, in Go receiver style: fails (receiver
unchanged) when one more vector would exceed `MaxInvPerMsg`, otherwise
appends. -/
def MsgNotFound.AddInvVect (msg : MsgNotFound) (iv : InvVect) :
    MsgNotFound × Option CodecError :=
  if msg.InvList.length + 1 > MaxInvPerMsg then
    (msg, some (messageError "MsgNotFound.AddInvVect" "too many invvect in message"))
  else ({ InvList := msg.InvList ++ [iv] }, none)

/-- The decode loop of `MsgNotFound.Bsvdecode`: reads `n` inventory vectors,
calling `AddInvVect` with the error deliberately discarded (`_ =` in Go). -/
def MsgNotFound.readInvLoop (pver : Nat) : Nat → MsgNotFound → List Nat →
    Except CodecError (MsgNotFound × List Nat)
  | 0, msg, r => .ok (msg, r)
  | n + 1, msg, r =>
      match readInvVect pver r with
      | .error e => .error e
      | .ok (iv, rest) => MsgNotFound.readInvLoop pver n (msg.AddInvVect iv).1 rest

/-- `MsgNotFound.Bsvdecode`: reads the varint count, rejects with a protocol
error when it exceeds `MaxInvPerMsg` before reading any element, resets the
receiver's list (Go allocates a fresh pre-sized slice) and reads exactly
`count` vectors. -/
def MsgNotFound.Bsvdecode (msg : MsgNotFound) (r : List Nat) (pver : Nat)
    (enc : MessageEncoding) : Except CodecError (MsgNotFound × List Nat) :=
  match ReadVarInt pver r with
  | .error e => .error e
  | .ok (count, rest) =>
      if count > MaxInvPerMsg then
        .error (messageError "MsgNotFound.Bsvdecode" "too many invvect in message")
      else MsgNotFound.readInvLoop pver count { InvList := [] } rest

/-- `MsgNotFound.BsvEncode`: re-validates the bound before writing the count,
then writes the count and each vector. -/
def MsgNotFound.BsvEncode (msg : MsgNotFound) (pver : Nat) (enc : MessageEncoding) :
    Except CodecError (List Nat) :=
  if msg.InvList.length > MaxInvPerMsg then
    .error (messageError "MsgNotFound.BsvEncode" "too many invvect in message")
  else
    .ok (WriteVarInt pver msg.InvList.length ++
      (msg.InvList.map (writeInvVect pver)).flatten)

/-- The decode loop consumes exactly the encoded vectors when the bound
admits them: starting from accumulated list `acc` with room for `ivs`, it
appends `ivs` and leaves `rest` unread. -/
theorem MsgNotFound.readInvLoop_append (pver : Nat) (ivs : List InvVect)
    (acc : List InvVect) (rest : List Nat)
    (hroom : acc.length + ivs.length ≤ MaxInvPerMsg)
    (hwf : ∀ iv ∈ ivs, iv.InvType < 2 ^ 32 ∧ iv.Hash.length = 32) :
    MsgNotFound.readInvLoop pver ivs.length { InvList := acc }
        ((ivs.map (writeInvVect pver)).flatten ++ rest) =
      .ok ({ InvList := acc ++ ivs }, rest) := by
  induction ivs generalizing acc with
  | nil => simp [MsgNotFound.readInvLoop]
  | cons iv tl ih =>
      obtain ⟨ht, hh⟩ := hwf iv (by simp)
      have hlen : acc.length + 1 ≤ MaxInvPerMsg := by
        simp at hroom; omega
      have hadd : (MsgNotFound.AddInvVect { InvList := acc } iv).1 =
          { InvList := acc ++ [iv] } := by
        simp [MsgNotFound.AddInvVect, Nat.not_lt.mpr hlen]
      have ih2 := ih (acc ++ [iv])
        (by simp at hroom ⊢; omega)
        (fun x hx => hwf x (by simp [hx]))
      simp only [List.map_cons, List.flatten_cons, List.append_assoc, List.length_cons,
        MsgNotFound.readInvLoop, readInvVect_writeInvVect pver iv _ ht hh, hadd]
      simpa using ih2

/-- `MsgCreateStream` (msg_create_stream.go): association ID bytes, a 1-byte
stream type, and a stream policy name (string modelled as its bytes). -/
structure MsgCreateStream where
  AssociationID : List Nat
  StreamType : Nat
  StreamPolicyName : List Nat
  deriving DecidableEq, Repr

/-- `MsgCreateStream.BsvEncode`: protocol error when the association ID is
empty or longer than `MaxAssociationIDLen`; otherwise varbytes ID, the
stream-type byte, and the varstring policy name. -/
def MsgCreateStream.BsvEncode (msg : MsgCreateStream) (pver : Nat)
    (enc : MessageEncoding) : Except CodecError (List Nat) :=
  if msg.AssociationID.length = 0 then
    .error (messageError "MsgCreateStream.BsvEncode" "association ID must not be empty")
  else if msg.AssociationID.length > MaxAssociationIDLen then
    .error (messageError "MsgCreateStream.BsvEncode" "association ID too long")
  else
    .ok (WriteVarBytes pver msg.AssociationID ++ [msg.StreamType % 256] ++
      WriteVarString pver msg.StreamPolicyName)

/-- `MsgCreateStream.Bsvdecode`: varbytes ID bounded by
`MaxAssociationIDLen`, rejection of an empty ID, the stream-type byte, and
the varstring policy name (whose read consults the `ebs`-derived ceiling). -/
def MsgCreateStream.Bsvdecode (ebs : Nat) (msg : MsgCreateStream) (r : List Nat)
    (pver : Nat) (enc : MessageEncoding) :
    Except CodecError (MsgCreateStream × List Nat) :=
  match ReadVarBytes pver MaxAssociationIDLen "AssociationID" r with
  | .error e => .error e
  | .ok (assocID, r1) =>
      if assocID.length = 0 then
        .error (messageError "MsgCreateStream.Bsvdecode" "association ID must not be empty")
      else
        match readBytes 1 r1 with
        | .error e => .error e
        | .ok (st, r2) =>
            match ReadVarString ebs pver r2 with
            | .error e => .error e
            | .ok (policy, r3) =>
                .ok ({ AssociationID := assocID
                       StreamType := fromLE st
                       StreamPolicyName := policy }, r3)

/-- `BlockHeader` as a fixed 80-byte record; `readBlockHeader` and
`writeBlockHeader` (absent from src/) move exactly these 80 bytes, which is
all the merkleblock claims depend on. -/
structure BlockHeader where
  bytes : List Nat
  deriving DecidableEq, Repr

/-- Modelled from the spec: `readBlockHeader` (blockheader.go, absent from
src/): reads the fixed 80 header bytes. -/
def readBlockHeader (pver : Nat) (r : List Nat) :
    Except CodecError (BlockHeader × List Nat) :=
  match readBytes 80 r with
  | .error e => .error e
  | .ok (b, rest) => .ok ({ bytes := b }, rest)

/-- `maxFlagsPerMerkleBlock()` (src/unnamed/part_005): the maximum number of
flag bytes, `maxTxPerBlock() / 8`.  The process-wide `maxTxPerBlock()` figure
(derived from `ebs` in code absent from src/) is threaded as the explicit
`maxTx` parameter. -/
def maxFlagsPerMerkleBlock (maxTx : Nat) : Nat := maxTx / 8

/-- `MsgMerkleBlock` (src/unnamed/part_005): block header, transaction count,
bounded hash list, and bounded flag bytes. -/
structure MsgMerkleBlock where
  Header : BlockHeader
  Transactions : Nat
  Hashes : List (List Nat)
  Flags : List Nat
  deriving DecidableEq, Repr

/-- `MsgMerkleBlock.AddTxHash`, in Go receiver style: fails (receiver
unchanged) when one more hash would exceed `maxTxPerBlock()`, otherwise
appends. -/
def MsgMerkleBlock.AddTxHash (maxTx : Nat) (msg : MsgMerkleBlock) (h : List Nat) :
    MsgMerkleBlock × Option CodecError :=
  if msg.Hashes.length + 1 > maxTx then
    (msg, some (messageError "MsgMerkleBlock.AddTxHash" "too many tx hashes for message"))
  else ({ msg with Hashes := msg.Hashes ++ [h] }, none)

/-- The hash-reading loop of `MsgMerkleBlock.Bsvdecode`: reads `n` 32-byte
hashes, checking the `AddTxHash` error (unlike notfound, merkleblock does not
discard it). -/
def MsgMerkleBlock.readHashLoop (maxTx : Nat) : Nat → MsgMerkleBlock → List Nat →
    Except CodecError (MsgMerkleBlock × List Nat)
  | 0, msg, r => .ok (msg, r)
  | n + 1, msg, r =>
      match readBytes 32 r with
      | .error e => .error e
      | .ok (h, rest) =>
          match MsgMerkleBlock.AddTxHash maxTx msg h with
          | (_, some e) => .error e
          | (msg2, none) => MsgMerkleBlock.readHashLoop maxTx n msg2 rest

/-- `MsgMerkleBlock.Bsvdecode`: version gate, block header, uint32
transaction count, varint hash count rejected above `maxTxPerBlock()` before
any hash is read, exactly `count` hashes, then the flag varbytes bounded by
`maxFlagsPerMerkleBlock()`. -/
def MsgMerkleBlock.Bsvdecode (maxTx : Nat) (msg : MsgMerkleBlock) (r : List Nat)
    (pver : Nat) (enc : MessageEncoding) :
    Except CodecError (MsgMerkleBlock × List Nat) :=
  if pver < BIP0037Version then
    .error (messageError "MsgMerkleBlock.Bsvdecode" "merkleblock message invalid for protocol version")
  else
    match readBlockHeader pver r with
    | .error e => .error e
    | .ok (hdr, r1) =>
        match readUIntLE 4 r1 with
        | .error e => .error e
        | .ok (txns, r2) =>
            match ReadVarInt pver r2 with
            | .error e => .error e
            | .ok (count, r3) =>
                if count > maxTx then
                  .error (messageError "MsgMerkleBlock.Bsvdecode" "too many transaction hashes for message")
                else
                  match MsgMerkleBlock.readHashLoop maxTx count
                      { Header := hdr, Transactions := txns, Hashes := [], Flags := msg.Flags } r3 with
                  | .error e => .error e
                  | .ok (msg2, r4) =>
                      match ReadVarBytes pver (maxFlagsPerMerkleBlock maxTx)
                          "merkle block flags size" r4 with
                      | .error e => .error e
                      | .ok (flags, r5) => .ok ({ msg2 with Flags := flags }, r5)

/-- `MsgMerkleBlock.BsvEncode`: version gate, re-validation of both bounds
before writing, then header, count, hashes, and flag varbytes. -/
def MsgMerkleBlock.BsvEncode (maxTx : Nat) (msg : MsgMerkleBlock) (pver : Nat)
    (enc : MessageEncoding) : Except CodecError (List Nat) :=
  if pver < BIP0037Version then
    .error (messageError "MsgMerkleBlock.BsvEncode" "merkleblock message invalid for protocol version")
  else if msg.Hashes.length > maxTx then
    .error (messageError "MsgMerkleBlock.Bsvdecode" "too many transaction hashes for message")
  else if msg.Flags.length > maxFlagsPerMerkleBlock maxTx then
    .error (messageError "MsgMerkleBlock.Bsvdecode" "too many flag bytes for message")
  else
    .ok (msg.Header.bytes ++ toLE 4 msg.Transactions ++
      WriteVarInt pver msg.Hashes.length ++ msg.Hashes.flatten ++
      WriteVarBytes pver msg.Flags)

/-- The merkleblock hash loop consumes exactly the encoded hashes when the
bound admits them. -/
theorem MsgMerkleBlock.readHashLoop_append (maxTx : Nat) (hashes : List (List Nat))
    (msg : MsgMerkleBlock) (rest : List Nat)
    (hroom : msg.Hashes.length + hashes.length ≤ maxTx)
    (hwf : ∀ h ∈ hashes, h.length = 32) :
    MsgMerkleBlock.readHashLoop maxTx hashes.length msg (hashes.flatten ++ rest) =
      .ok ({ msg with Hashes := msg.Hashes ++ hashes }, rest) := by
  induction hashes generalizing msg with
  | nil => simp [MsgMerkleBlock.readHashLoop]
  | cons h tl ih =>
      have hh : h.length = 32 := hwf h (by simp)
      have hlen : ¬ (msg.Hashes.length + 1 > maxTx) := by
        simp at hroom; omega
      have ih2 := ih { msg with Hashes := msg.Hashes ++ [h] }
        (by simp at hroom ⊢; omega)
        (fun x hx => hwf x (by simp [hx]))
      simp only [List.flatten_cons, List.append_assoc, List.length_cons,
        MsgMerkleBlock.readHashLoop, hh ▸ readBytes_append h (tl.flatten ++ rest),
        MsgMerkleBlock.AddTxHash, hlen, if_false]
      simpa using ih2

/-- The concrete message types that `makeEmptyMessage` (message.go) can
instantiate, as tags: the empty instances carry no data beyond their type. -/
inductive MsgKind where
  | version | verack | getaddr | addr | getblocks | block | inv | getdata
  | notfound | tx | extendedTx | ping | pong | getheaders | headers | mempool
  | filteradd | filterclear | filterload | merkleblock | reject | sendheaders
  | feefilter | getcfilters | getcfcheckpt | cfilter | cfheaders | cfcheckpt
  | protoconf | extmsg | authch | authresp | sendcmpct
  deriving DecidableEq, Repr

/-- `makeEmptyMessage` (message.go): the closed switch over the command
constants of message.go; every unhandled command (the `default` case) is the
recoverable unhandled-command error.  Note the switch has no case for
`CmdGetCFHeaders`, `CmdCreateStream` or `CmdStreamAck` even though those
commands are returned by `Command()` of message types in this repository. -/
def makeEmptyMessage (command : String) : Except String MsgKind :=
  if command = "version" then .ok .version
  else if command = "verack" then .ok .verack
  else if command = "getaddr" then .ok .getaddr
  else if command = "addr" then .ok .addr
  else if command = "getblocks" then .ok .getblocks
  else if command = "block" then .ok .block
  else if command = "inv" then .ok .inv
  else if command = "getdata" then .ok .getdata
  else if command = "notfound" then .ok .notfound
  else if command = "tx" then .ok .tx
  else if command = "exttx" then .ok .extendedTx
  else if command = "ping" then .ok .ping
  else if command = "pong" then .ok .pong
  else if command = "getheaders" then .ok .getheaders
  else if command = "headers" then .ok .headers
  else if command = "mempool" then .ok .mempool
  else if command = "filteradd" then .ok .filteradd
  else if command = "filterclear" then .ok .filterclear
  else if command = "filterload" then .ok .filterload
  else if command = "merkleblock" then .ok .merkleblock
  else if command = "reject" then .ok .reject
  else if command = "sendheaders" then .ok .sendheaders
  else if command = "feefilter" then .ok .feefilter
  else if command = "getcfilters" then .ok .getcfilters
  else if command = "getcfcheckpt" then .ok .getcfcheckpt
  else if command = "cfilter" then .ok .cfilter
  else if command = "cfheaders" then .ok .cfheaders
  else if command = "cfcheckpt" then .ok .cfcheckpt
  else if command = "protoconf" then .ok .protoconf
  else if command = "extmsg" then .ok .extmsg
  else if command = "authch" then .ok .authch
  else if command = "authresp" then .ok .authresp
  else if command = "sendcmpct" then .ok .sendcmpct
  else .error "unhandled command"

/-- ASCII bytes of a command string (Go strings hold raw bytes; commands are
ASCII). -/
def strBytes (s : String) : List Nat := s.data.map Char.toNat

/-- Trailing-zero stripping used on header command fields:
`bytes.TrimRight(b, string(rune(0)))`. -/
def stripZeroRight (l : List Nat) : List Nat :=
  (l.reverse.dropWhile (fun b => b = 0)).reverse

/-- `messageHeader` (message.go): the parsed header fields. -/
structure MessageHeader where
  magic : Nat
  command : List Nat
  length : Nat
  checksum : List Nat
  extLength : Nat
  deriving DecidableEq, Repr

/-- `readMessageHeader` (message.go): reads exactly 24 bytes, parses magic,
command, length and checksum, and strips trailing zeros from the command.
For the extmsg sentinel (command "extmsg", length 0xffffffff, all-zero
checksum) the code re-reads an inner command and an extended length from the
same exhausted 24-byte buffer with `readElements` whose error is discarded,
so the inner command bytes stay zero (stripping to the empty command) and the
extended length stays 0. -/
def readMessageHeader (r : List Nat) : Except CodecError MessageHeader :=
  if r.length < MessageHeaderSize then .error .eof
  else
    let hb := r.take MessageHeaderSize
    let magic := fromLE (hb.take 4)
    let cmdField := (hb.drop 4).take 12
    let length := fromLE ((hb.drop 16).take 4)
    let checksum := (hb.drop 20).take 4
    let command := stripZeroRight cmdField
    if command = strBytes "extmsg" ∧ length = 0xffffffff ∧ checksum = [0, 0, 0, 0] then
      .ok { magic := magic
            command := stripZeroRight (List.replicate 12 0)
            length := length
            checksum := checksum
            extLength := 0 }
    else
      .ok { magic := magic
            command := command
            length := length
            checksum := checksum
            extLength := 0 }

/-- A message as seen by the framing layer: the `Message` interface of
message.go (command string, payload encoder, per-type payload ceiling). -/
structure GoMsg where
  command : String
  bsvEncode : Nat → MessageEncoding → Except CodecError (List Nat)
  maxPayloadLength : Nat → Nat

/-- `WriteMessageWithEncodingN` (message.go).  The writer is `Option Unit`
(`none` is Go's nil writer); the double-hash collaborator
`chainhash.DoubleHashB` is the `hash` parameter; `ebs` is the process-wide
excessive block size.  Returns the bytes written and Go's byte count.
Faithfully kept quirks: when the encoded payload exceeds `math.MaxUint32`
the code returns `totalBytes, err` with `err` still nil (reporting success
with nothing written); when the payload length equals 0xffffffff the header
extLength field is set but `writeElements` below never writes it, and the
checksum is the double-hash prefix, not zero. -/
def WriteMessageWithEncodingN (hash : List Nat → List Nat) (ebs : Nat)
    (w : Option Unit) (msg : GoMsg) (pver bsvnet : Nat) (encoding : MessageEncoding) :
    Except CodecError (List Nat × Nat) :=
  match w with
  | none => .error (.generic "writer must not be nil")
  | some _ =>
      if msg.command.length > CommandSize then
        .error (messageError "WriteMessage" "command is too long")
      else
        match msg.bsvEncode pver encoding with
        | .error e => .error e
        | .ok payload =>
            let lenp := payload.length
            if lenp > maxMessagePayload ebs then
              .error (messageError "WriteMessage" "message payload is too large")
            else if lenp > msg.maxPayloadLength pver then
              .error (messageError "WriteMessage" "message payload is too large for message type")
            else if lenp > 0xffffffff then
              .ok ([], 0)
            else
              let length := if lenp ≥ 0xffffffff then 0xffffffff else lenp
              let checksum := (hash payload).take 4
              let commandField := strBytes msg.command ++
                List.replicate (CommandSize - msg.command.length) 0
              let header := toLE 4 bsvnet ++ commandField ++ toLE 4 length ++ checksum
              let out := header ++ payload
              .ok (out, out.length)

/-- `WriteMessageN` (message.go): `WriteMessageWithEncodingN` at
`BaseEncoding`. -/
def WriteMessageN (hash : List Nat → List Nat) (ebs : Nat) (w : Option Unit)
    (msg : GoMsg) (pver bsvnet : Nat) : Except CodecError (List Nat × Nat) :=
  WriteMessageWithEncodingN hash ebs w msg pver bsvnet .base

/-- `WriteMessage` (message.go): `WriteMessageN` without the byte count. -/
def WriteMessage (hash : List Nat → List Nat) (ebs : Nat) (w : Option Unit)
    (msg : GoMsg) (pver bsvnet : Nat) : Except CodecError (List Nat) :=
  match WriteMessageN hash ebs w msg pver bsvnet with
  | .error e => .error e
  | .ok (out, _) => .ok out

/-- An opaque decoded message value: the concrete `Message` produced by the
read path (its payload semantics are out of scope for these claims). -/
inductive MsgVal where
  | mk
  deriving DecidableEq, Repr

/-- A registry entry: the per-type ceiling and payload decoder of the
concrete empty message that `makeEmptyMessage` instantiated. -/
structure RegEntry where
  maxPayloadLength : Nat → Nat
  bsvdecode : List Nat → Nat → MessageEncoding → Except CodecError MsgVal

/-- `ReadMessageWithEncodingN` (message.go).  Collaborator parameters:
`hash` (chainhash.DoubleHashB), `registry` (makeEmptyMessage together with
the dynamic dispatch to the concrete type's `MaxPayloadLength`/`Bsvdecode`),
`extHandler` (the process-wide external-handler map keyed by command), and
`utf8Valid` (unicode/utf8 ValidString).  Returns Go's byte count together
with the parse result. -/
def ReadMessageWithEncodingN (hash : List Nat → List Nat) (ebs : Nat)
    (registry : List Nat → Except String RegEntry)
    (extHandler : List Nat → Option (List Nat → Nat → Nat → Nat × Except CodecError (MsgVal × List Nat)))
    (utf8Valid : List Nat → Bool)
    (r : List Nat) (pver bsvnet : Nat) (enc : MessageEncoding) :
    Nat × Except CodecError (MsgVal × List Nat) :=
  match readMessageHeader r with
  | .error e => (min r.length MessageHeaderSize, .error e)
  | .ok hdr =>
      let totalBytes := MessageHeaderSize
      let rest := r.drop MessageHeaderSize
      if hdr.length > maxMessagePayload ebs ∨ hdr.extLength > maxMessagePayload ebs then
        (totalBytes, .error (messageError "ReadMessage" "message payload is too large"))
      else if hdr.magic ≠ bsvnet then
        (totalBytes, .error (messageError "ReadMessage" "message from other network"))
      else if ¬ utf8Valid hdr.command then
        (totalBytes, .error (messageError "ReadMessage" "invalid command"))
      else
        match registry hdr.command with
        | .error e => (totalBytes, .error (messageError "ReadMessage" e))
        | .ok entry =>
            let mpl := entry.maxPayloadLength pver
            if hdr.length > mpl ∨ hdr.extLength > mpl then
              (totalBytes, .error (messageError "ReadMessage" "payload exceeds max length"))
            else
              let length := if hdr.length = 0xffffffff then hdr.extLength else hdr.length
              match extHandler hdr.command with
              | some handler => handler rest length totalBytes
              | none =>
                  if length ≤ rest.length then
                    let payload := rest.take length
                    let totalBytes := totalBytes + length
                    if length ≠ 0xffffffff ∧ hdr.extLength = 0 ∧
                        (hash payload).take 4 ≠ hdr.checksum then
                      (totalBytes, .error (messageError "ReadMessage" "payload checksum failed"))
                    else
                      match entry.bsvdecode payload pver enc with
                      | .error e => (totalBytes, .error e)
                      | .ok m => (totalBytes, .ok (m, payload))
                  else
                    (totalBytes + rest.length, .error .eof)

/-- C10: calling WriteMessageWithEncodingN (and hence WriteMessage and
WriteMessageN) with a nil writer returns an error immediately; the result
does not depend on the message at all (it is never asked to serialize) and
no bytes are produced. -/
theorem claimC10 (hash : List Nat → List Nat) (ebs : Nat) (msg msg2 : GoMsg)
    (pver bsvnet : Nat) (enc : MessageEncoding) :
    WriteMessageWithEncodingN hash ebs none msg pver bsvnet enc =
      .error (.generic "writer must not be nil") ∧
    WriteMessageWithEncodingN hash ebs none msg pver bsvnet enc =
      WriteMessageWithEncodingN hash ebs none msg2 pver bsvnet enc ∧
    WriteMessageN hash ebs none msg pver bsvnet =
      .error (.generic "writer must not be nil") ∧
    WriteMessage hash ebs none msg pver bsvnet =
      .error (.generic "writer must not be nil") := by
  refine ⟨rfl, rfl, rfl, rfl⟩

/-- C2: makeEmptyMessage is NOT total over the commands returned by the
repository's message types: the switch in message.go has no case for
"createstrm" (MsgCreateStream.Command), "streamack" (MsgStreamAck.Command)
or "getcfheaders" (MsgGetCFHeaders.Command), so those fall into the default
unhandled-command error, contradicting the repository's own tests
TestCreateStreamMakeEmptyMessage and TestStreamAckMakeEmptyMessage; handled
commands do produce the matching empty instance, and unknown commands are a
recoverable error. -/
theorem claimC2 :
    makeEmptyMessage "createstrm" = .error "unhandled command" ∧
    makeEmptyMessage "streamack" = .error "unhandled command" ∧
    makeEmptyMessage "getcfheaders" = .error "unhandled command" ∧
    makeEmptyMessage "notfound" = .ok .notfound ∧
    makeEmptyMessage "pong" = .ok .pong ∧
    makeEmptyMessage "merkleblock" = .ok .merkleblock ∧
    makeEmptyMessage "bogus" = .error "unhandled command" := by
  refine ⟨rfl, rfl, rfl, rfl, rfl, rfl, rfl⟩

/-- C1: a message whose encoded payload is 2^32 bytes (here, with the
excessive block size raised so the global ceiling is exactly 2^32 and the
per-type ceiling above it) is NOT framed in the extended header form:
WriteMessageWithEncodingN hits the `lenp > math.MaxUint32` branch, which
returns the still-nil error with zero bytes written, so no header, no
0xffffffff length, no zero checksum and no 8-byte true length are ever
produced. -/
theorem claimC1 :
    WriteMessageWithEncodingN (fun _ => []) 2048000000 (some ())
      { command := "block"
        bsvEncode := fun _ _ => .ok (List.replicate (2 ^ 32) 0)
        maxPayloadLength := fun _ => 2 ^ 33 }
      70016 3652501241 .base = .ok ([], 0) := by
  have hcmd : ¬ ("block".length > CommandSize) := by decide
  have hmax : maxMessagePayload 2048000000 = 2 ^ 32 := by norm_num [maxMessagePayload]
  simp only [WriteMessageWithEncodingN, hcmd, if_false, List.length_replicate, hmax]
  norm_num

/-- C4: the ping/pong nonce version gate is deliberately inverted: MsgPong
encode and decode fail with a protocol error exactly when
`pver <= BIP0031Version`, and for every `pver > BIP0031Version` encode
succeeds and decode succeeds whenever at least 8 input bytes are
available. -/
theorem claimC4 (msg prior : MsgPong) (r : List Nat) (pver : Nat)
    (enc : MessageEncoding) :
    (pver ≤ BIP0031Version →
      MsgPong.BsvEncode msg pver enc =
        .error (messageError "MsgPong.BsvEncode" "pong message invalid for protocol version") ∧
      MsgPong.Bsvdecode prior r pver enc =
        (prior, r, some (messageError "MsgPong.Bsvdecode" "pong message invalid for protocol version"))) ∧
    (pver > BIP0031Version →
      MsgPong.BsvEncode msg pver enc = .ok (toLE 8 msg.Nonce) ∧
      (8 ≤ r.length → (MsgPong.Bsvdecode prior r pver enc).2.2 = none)) ∧
    (isProtocolFailure (MsgPong.BsvEncode msg pver enc) = true ↔ pver ≤ BIP0031Version) ∧
    ((∃ e, (MsgPong.Bsvdecode prior r pver enc).2.2 = some e ∧ e.isProtocol = true) ↔
      pver ≤ BIP0031Version) := by
  by_cases h : pver ≤ BIP0031Version
  · refine ⟨fun _ => ⟨by simp [MsgPong.BsvEncode, h], by simp [MsgPong.Bsvdecode, h]⟩,
      fun hgt => absurd h (by omega), ?_, ?_⟩
    · simp [MsgPong.BsvEncode, h, isProtocolFailure, messageError, CodecError.isProtocol]
    · refine ⟨fun _ => h, fun _ => ?_⟩
      exact ⟨messageError "MsgPong.Bsvdecode" "pong message invalid for protocol version",
        by simp [MsgPong.Bsvdecode, h], rfl⟩
  · refine ⟨fun hle => absurd hle h, fun _ => ⟨by simp [MsgPong.BsvEncode, h], ?_⟩, ?_, ?_⟩
    · intro hlen
      simp [MsgPong.Bsvdecode, h, readBytes, hlen]
    · simp [MsgPong.BsvEncode, h, isProtocolFailure]
    · constructor
      · rintro ⟨e, he, hp⟩
        by_cases hlen : 8 ≤ r.length
        · simp [MsgPong.Bsvdecode, h, readBytes, hlen] at he
        · simp [MsgPong.Bsvdecode, h, readBytes, hlen] at he
          subst he
          simp [CodecError.isProtocol] at hp
      · intro hle
        exact absurd hle h

/-- C7: encoding a MsgPong with nonce 123123 at the latest protocol version
writes exactly the little-endian bytes f3 e0 01 00 00 00 00 00; decoding at
any protocol version at or below BIP0031Version fails with a protocol error
and returns the receiver with its Nonce at the prior value. -/
theorem claimC7 (pver : Nat) (prior : MsgPong) (r : List Nat)
    (hle : pver ≤ BIP0031Version) :
    MsgPong.BsvEncode { Nonce := 123123 } ProtocolVersion .base =
      .ok [0xf3, 0xe0, 0x01, 0x00, 0x00, 0x00, 0x00, 0x00] ∧
    MsgPong.Bsvdecode prior r pver .base =
      (prior, r, some (messageError "MsgPong.Bsvdecode" "pong message invalid for protocol version")) := by
  constructor
  · rfl
  · simp [MsgPong.Bsvdecode, hle]

/-- C7 witness: the decode half at the concrete version BIP0031Version with a
default receiver. -/
theorem claimC7_witness :
    (60000 ≤ BIP0031Version) ∧
    MsgPong.Bsvdecode { Nonce := 0 } [1, 2, 3] 60000 .base =
      ({ Nonce := 0 }, [1, 2, 3],
        some (messageError "MsgPong.Bsvdecode" "pong message invalid for protocol version")) :=
  ⟨by decide, (claimC7 60000 { Nonce := 0 } [1, 2, 3] (by decide)).2⟩

/-- C4 witness: the gate at the threshold version itself (failure) and just
above it (success), at concrete inputs. -/
theorem claimC4_witness :
    (60000 ≤ BIP0031Version) ∧
    MsgPong.BsvEncode { Nonce := 5 } 60000 .base =
      .error (messageError "MsgPong.BsvEncode" "pong message invalid for protocol version") ∧
    (60001 > BIP0031Version) ∧
    MsgPong.BsvEncode { Nonce := 5 } 60001 .base = .ok (toLE 8 5) := by
  refine ⟨by decide, ((claimC4 { Nonce := 5 } { Nonce := 0 } [] 60000 .base).1 (by decide)).1,
    by decide, ((claimC4 { Nonce := 5 } { Nonce := 0 } [] 60001 .base).2.1 (by decide)).1⟩

/-- C8: MsgNotFound.AddInvVect fails with a protocol error and leaves the
list unchanged when one more vector would exceed MaxInvPerMsg, and otherwise
appends; BsvEncode independently re-checks the bound before writing the
count, failing with a protocol error when the list (however built) exceeds
it and otherwise writing count plus vectors. -/
theorem claimC8 (msg : MsgNotFound) (iv : InvVect) (pver : Nat)
    (enc : MessageEncoding) :
    (msg.InvList.length + 1 > MaxInvPerMsg →
      msg.AddInvVect iv = (msg,
        some (messageError "MsgNotFound.AddInvVect" "too many invvect in message"))) ∧
    (msg.InvList.length + 1 ≤ MaxInvPerMsg →
      msg.AddInvVect iv = ({ InvList := msg.InvList ++ [iv] }, none)) ∧
    (msg.InvList.length > MaxInvPerMsg →
      msg.BsvEncode pver enc =
        .error (messageError "MsgNotFound.BsvEncode" "too many invvect in message")) ∧
    (msg.InvList.length ≤ MaxInvPerMsg →
      msg.BsvEncode pver enc =
        .ok (WriteVarInt pver msg.InvList.length ++
          (msg.InvList.map (writeInvVect pver)).flatten)) := by
  refine ⟨fun h => by simp [MsgNotFound.AddInvVect, h],
    fun h => by simp [MsgNotFound.AddInvVect]; omega,
    fun h => by simp [MsgNotFound.BsvEncode, h],
    fun h => by simp [MsgNotFound.BsvEncode, Nat.not_lt.mpr h]⟩

/-- C8 witness: a 50000-element list rejects one more vector and a mutated
50001-element list fails to encode, while a small list appends. -/
theorem claimC8_witness :
    ({ InvList := List.replicate 50001 { InvType := 0, Hash := [] }} :
        MsgNotFound).BsvEncode 0 .base =
      .error (messageError "MsgNotFound.BsvEncode" "too many invvect in message") ∧
    ({ InvList := List.replicate 50000 { InvType := 0, Hash := [] }} :
        MsgNotFound).AddInvVect { InvType := 1, Hash := [] } =
      ({ InvList := List.replicate 50000 { InvType := 0, Hash := [] }},
        some (messageError "MsgNotFound.AddInvVect" "too many invvect in message")) ∧
    ({ InvList := [] } : MsgNotFound).AddInvVect { InvType := 1, Hash := [] } =
      ({ InvList := [{ InvType := 1, Hash := [] }] }, none) := by
  refine ⟨(claimC8 _ { InvType := 0, Hash := [] } 0 .base).2.2.1 ?_,
    (claimC8 _ { InvType := 1, Hash := [] } 0 .base).1 ?_,
    (claimC8 _ { InvType := 1, Hash := [] } 0 .base).2.1 ?_⟩
  · have e : ({ InvList := List.replicate 50001 { InvType := 0, Hash := [] }} :
        MsgNotFound).InvList = List.replicate 50001 { InvType := 0, Hash := [] } := rfl
    rw [e, List.length_replicate]
    decide
  · have e : ({ InvList := List.replicate 50000 { InvType := 0, Hash := [] }} :
        MsgNotFound).InvList = List.replicate 50000 { InvType := 0, Hash := [] } := rfl
    rw [e, List.length_replicate]
    decide
  · decide

/-- C5: the global payload ceiling shared by the write and read paths equals
floor(ebs / 1000000) * 2 * 1024 * 1024 bytes of the configured excessive
block size (default 32000000, giving 67108864); a send whose encoded payload
exceeds it and a receive whose declared or extended length exceeds it each
fail with a protocol error. -/
theorem claimC5 (hash : List Nat → List Nat) (ebs : Nat) (msg : GoMsg)
    (pver bsvnet : Nat) (enc : MessageEncoding) (payload : List Nat)
    (registry : List Nat → Except String RegEntry)
    (extHandler : List Nat → Option (List Nat → Nat → Nat → Nat × Except CodecError (MsgVal × List Nat)))
    (utf8Valid : List Nat → Bool) (r : List Nat) (hdr : MessageHeader) :
    (maxMessagePayload ebs = ebs / 1000000 * (2 * 1024 * 1024)) ∧
    (maxMessagePayload 32000000 = 67108864) ∧
    (msg.command.length ≤ CommandSize →
      msg.bsvEncode pver enc = .ok payload →
      payload.length > maxMessagePayload ebs →
      WriteMessageWithEncodingN hash ebs (some ()) msg pver bsvnet enc =
        .error (messageError "WriteMessage" "message payload is too large")) ∧
    (readMessageHeader r = .ok hdr →
      (hdr.length > maxMessagePayload ebs ∨ hdr.extLength > maxMessagePayload ebs) →
      (ReadMessageWithEncodingN hash ebs registry extHandler utf8Valid r pver bsvnet enc).2 =
        .error (messageError "ReadMessage" "message payload is too large")) := by
  refine ⟨by unfold maxMessagePayload; ring, by decide, ?_, ?_⟩
  · intro hcmd henc hbig
    simp [WriteMessageWithEncodingN, Nat.not_lt.mpr hcmd, henc, hbig]
  · intro hhdr hbig
    simp [ReadMessageWithEncodingN, hhdr, hbig]

/-- C5 witness: with the excessive block size set to 0 the ceiling is 0, a
1-byte payload fails to send, and a header declaring a nonzero length fails
to receive. -/
theorem claimC5_witness :
    WriteMessageWithEncodingN (fun _ => []) 0 (some ())
      { command := "tx", bsvEncode := fun _ _ => .ok [7], maxPayloadLength := fun _ => 100 }
      0 0 .base = .error (messageError "WriteMessage" "message payload is too large") ∧
    (ReadMessageWithEncodingN (fun _ => []) 0 (fun _ => .error "x") (fun _ => none)
      (fun _ => true) (List.replicate 24 1) 0 0 .base).2 =
      .error (messageError "ReadMessage" "message payload is too large") := by
  constructor
  · exact (claimC5 (fun _ => []) 0
      { command := "tx", bsvEncode := fun _ _ => .ok [7], maxPayloadLength := fun _ => 100 }
      0 0 .base [7] (fun _ => .error "x") (fun _ => none) (fun _ => true) []
      { magic := 0, command := [], length := 0, checksum := [], extLength := 0 }).2.2.1
      (by decide) rfl (by decide)
  · exact (claimC5 (fun _ => []) 0
      { command := "tx", bsvEncode := fun _ _ => .ok [7], maxPayloadLength := fun _ => 100 }
      0 0 .base [7] (fun _ => .error "x") (fun _ => none) (fun _ => true)
      (List.replicate 24 1)
      { magic := 16843009, command := List.replicate 12 1, length := 16843009,
        checksum := [1, 1, 1, 1], extLength := 0 }).2.2.2
      (by rfl) (by decide)

theorem head_dropWhileZero_ne (l : List Nat) (b : Nat)
    (h : (l.dropWhile (fun x => x = 0)).head? = some b) : b ≠ 0 := by
  induction l with
  | nil => simp [List.dropWhile] at h
  | cons a tl ih =>
      by_cases ha : a = 0
      · exact ih (by simpa [List.dropWhile, ha] using h)
      · simp [List.dropWhile, ha] at h
        omega

theorem stripZeroRight_getLast_ne (l : List Nat) (b : Nat)
    (h : (stripZeroRight l).getLast? = some b) : b ≠ 0 := by
  unfold stripZeroRight at h
  rw [List.getLast?_reverse] at h
  exact head_dropWhileZero_ne l.reverse b h

/-- C9: for every 24-byte header, readMessageHeader parses the command as
the 12-byte command field with all trailing zero bytes stripped, so the
parsed command never ends in a NUL and an all-zero command field parses as
the empty command; on the extmsg sentinel path the inner command bytes the
code reads (which remain zero, the 24-byte buffer being exhausted) are
stripped the same way, yielding the empty command. -/
theorem claimC9 (r : List Nat) (hdr : MessageHeader) (h24 : r.length = 24)
    (hok : readMessageHeader r = .ok hdr) :
    (∀ b, hdr.command.getLast? = some b → b ≠ 0) ∧
    (¬ (stripZeroRight ((r.drop 4).take 12) = strBytes "extmsg" ∧
        fromLE ((r.drop 16).take 4) = 0xffffffff ∧ (r.drop 20).take 4 = [0, 0, 0, 0]) →
      hdr.command = stripZeroRight ((r.drop 4).take 12)) ∧
    ((r.drop 4).take 12 = List.replicate 12 0 → hdr.command = []) ∧
    ((stripZeroRight ((r.drop 4).take 12) = strBytes "extmsg" ∧
        fromLE ((r.drop 16).take 4) = 0xffffffff ∧ (r.drop 20).take 4 = [0, 0, 0, 0]) →
      hdr.command = stripZeroRight (List.replicate 12 0)) := by
  have hnl : ¬ (r.length < MessageHeaderSize) := by
    rw [h24]; decide
  have htake : r.take MessageHeaderSize = r := by
    rw [show MessageHeaderSize = 24 from rfl, ← h24, List.take_length]
  rw [readMessageHeader] at hok
  simp only [hnl, if_false, htake] at hok
  by_cases hs : stripZeroRight ((r.drop 4).take 12) = strBytes "extmsg" ∧
      fromLE ((r.drop 16).take 4) = 0xffffffff ∧ (r.drop 20).take 4 = [0, 0, 0, 0]
  · rw [if_pos hs] at hok
    have hcmd : hdr.command = stripZeroRight (List.replicate 12 0) := by
      cases hok; rfl
    refine ⟨fun b hb => stripZeroRight_getLast_ne _ b (hcmd ▸ hb),
      fun hns => absurd hs hns, fun _ => by rw [hcmd]; decide, fun _ => hcmd⟩
  · rw [if_neg hs] at hok
    have hcmd : hdr.command = stripZeroRight ((r.drop 4).take 12) := by
      cases hok; rfl
    refine ⟨fun b hb => stripZeroRight_getLast_ne _ b (hcmd ▸ hb),
      fun _ => hcmd, fun hz => by rw [hcmd, hz]; decide, fun hsp => absurd hsp hs⟩

/-- C9 witness: a concrete 24-byte header whose command field is "tx"
followed by ten NULs parses to the two-byte command with the trailing zeros
stripped and no trailing NUL. -/
theorem claimC9_witness :
    ([1, 2, 3, 4, 116, 120, 0, 0, 0, 0, 0, 0, 0, 0, 0, 0, 0, 0, 0, 0, 0, 0, 0, 0] :
      List Nat).length = 24 ∧
    (∀ b, ({ magic := 67305985, command := [116, 120], length := 0, checksum := [0, 0, 0, 0], extLength := 0 } : MessageHeader).command.getLast? = some b → b ≠ 0) ∧
    ({ magic := 67305985, command := [116, 120], length := 0, checksum := [0, 0, 0, 0], extLength := 0 } : MessageHeader).command =
      stripZeroRight ((([1, 2, 3, 4, 116, 120, 0, 0, 0, 0, 0, 0, 0, 0, 0, 0, 0, 0,
        0, 0, 0, 0, 0, 0] : List Nat).drop 4).take 12) := by
  refine ⟨rfl, ?_, ?_⟩
  · exact (claimC9
      [1, 2, 3, 4, 116, 120, 0, 0, 0, 0, 0, 0, 0, 0, 0, 0, 0, 0, 0, 0, 0, 0, 0, 0]
      { magic := 67305985, command := [116, 120], length := 0, checksum := [0, 0, 0, 0], extLength := 0 } rfl rfl).1
  · exact (claimC9
      [1, 2, 3, 4, 116, 120, 0, 0, 0, 0, 0, 0, 0, 0, 0, 0, 0, 0, 0, 0, 0, 0, 0, 0]
      { magic := 67305985, command := [116, 120], length := 0, checksum := [0, 0, 0, 0], extLength := 0 } rfl rfl).2.1 (by decide)

theorem readBytes_one (a : Nat) (l : List Nat) :
    readBytes 1 (a :: l) = .ok ([a], l) := by
  simp [readBytes]

/-- C6 (amended: the policy string must fit under the `ebs`-derived global
payload ceiling consulted by ReadVarString): MsgCreateStream.BsvEncode fails
with a protocol error for an empty association ID and for one longer than
MaxAssociationIDLen; for an ID of length 1..129, a stream type below 256 and
a policy string within the ceiling, encode succeeds and decode returns the
original message exactly, consuming exactly the encoded bytes. -/
theorem claimC6 (ebs pver : Nat) (enc : MessageEncoding)
    (m prior : MsgCreateStream) (rest : List Nat) :
    (m.AssociationID.length = 0 →
      m.BsvEncode pver enc =
        .error (messageError "MsgCreateStream.BsvEncode" "association ID must not be empty")) ∧
    (m.AssociationID.length > MaxAssociationIDLen →
      m.BsvEncode pver enc =
        .error (messageError "MsgCreateStream.BsvEncode" "association ID too long")) ∧
    (1 ≤ m.AssociationID.length → m.AssociationID.length ≤ MaxAssociationIDLen →
      m.StreamType < 256 → m.StreamPolicyName.length ≤ maxMessagePayload ebs →
      m.StreamPolicyName.length < 2 ^ 64 →
      ∃ out, m.BsvEncode pver enc = .ok out ∧
        MsgCreateStream.Bsvdecode ebs prior (out ++ rest) pver enc = .ok (m, rest)) := by
  refine ⟨fun h0 => by simp [MsgCreateStream.BsvEncode, h0],
    fun hlong => by
      have h0 : ¬ (m.AssociationID.length = 0) := by omega
      simp [MsgCreateStream.BsvEncode, h0, hlong], ?_⟩
  intro h1 h2 h3 h4 h5
  have h0 : ¬ (m.AssociationID.length = 0) := by omega
  have hnl : ¬ (m.AssociationID.length > MaxAssociationIDLen) := by omega
  refine ⟨WriteVarBytes pver m.AssociationID ++ [m.StreamType % 256] ++
    WriteVarString pver m.StreamPolicyName, ?_, ?_⟩
  · simp [MsgCreateStream.BsvEncode, h0, hnl]
  · have hid64 : m.AssociationID.length < 2 ^ 64 := by
      unfold MaxAssociationIDLen at h2
      omega
    simp only [List.append_assoc]
    rw [MsgCreateStream.Bsvdecode,
      ReadVarBytes_WriteVarBytes pver MaxAssociationIDLen "AssociationID"
        m.AssociationID _ h2 hid64]
    simp only [h0, if_false, List.cons_append, List.nil_append, readBytes_one,
      ReadVarString_WriteVarString ebs pver m.StreamPolicyName rest h4 h5]
    simp [fromLE, Nat.mod_eq_of_lt h3]

/-- C6 counterexample: with the default excessive block size the ceiling is
67108864, and a createstream message with a one-byte association ID and a
67108865-byte policy string encodes successfully but fails to decode (the
varstring read rejects the length), so encode-then-decode does not return
the original message for every policy string. -/
theorem ReadVarString_too_long (ebs pver : Nat) (s rest : List Nat)
    (hgt : s.length > maxMessagePayload ebs) (h64 : s.length < 2 ^ 64) :
    ReadVarString ebs pver (WriteVarString pver s ++ rest) =
      .error (messageError "ReadVarString" "variable length string is too long") := by
  simp only [WriteVarString, List.append_assoc]
  rw [ReadVarString, ReadVarInt_WriteVarInt pver s.length (s ++ rest) h64]
  simp [hgt]

theorem createStream_encode_ok (pver : Nat) (enc : MessageEncoding)
    (m : MsgCreateStream) (h1 : m.AssociationID.length ≠ 0)
    (h2 : m.AssociationID.length ≤ MaxAssociationIDLen) :
    m.BsvEncode pver enc = .ok (WriteVarBytes pver m.AssociationID ++
      [m.StreamType % 256] ++ WriteVarString pver m.StreamPolicyName) := by
  have hnl : ¬ (m.AssociationID.length > MaxAssociationIDLen) := by omega
  simp [MsgCreateStream.BsvEncode, h1, hnl]

theorem createStream_decode_policy_too_long (ebs pver : Nat)
    (enc : MessageEncoding) (prior : MsgCreateStream) (p rest : List Nat)
    (hgt : p.length > maxMessagePayload ebs) (h64 : p.length < 2 ^ 64) :
    MsgCreateStream.Bsvdecode ebs prior
        ((WriteVarBytes pver [1] ++ [0] ++ WriteVarString pver p) ++ rest) pver enc =
      .error (messageError "ReadVarString" "variable length string is too long") := by
  rw [MsgCreateStream.Bsvdecode]
  simp only [List.append_assoc]
  rw [ReadVarBytes_WriteVarBytes pver MaxAssociationIDLen "AssociationID" [1] _
    (by decide) (by decide)]
  simp only [List.length_singleton, List.cons_append, List.nil_append, readBytes_one]
  rw [if_neg (by decide)]
  rw [ReadVarString_too_long ebs pver p rest hgt h64]

/-- C6 counterexample: with the default excessive block size the ceiling is
67108864, and a createstream message with a one-byte association ID and a
67108865-byte policy string encodes successfully but fails to decode (the
varstring read rejects the length), so encode-then-decode does not return
the original message for every policy string. -/
theorem claimC6_counterexample :
    MsgCreateStream.BsvEncode
        { AssociationID := [1], StreamType := 0, StreamPolicyName := List.replicate 67108865 97 } 70016 .base =
      .ok (WriteVarBytes 70016 [1] ++ [0] ++
        WriteVarString 70016 (List.replicate 67108865 97)) ∧
    MsgCreateStream.Bsvdecode 32000000
        { AssociationID := [], StreamType := 0, StreamPolicyName := [] }
        ((WriteVarBytes 70016 [1] ++ [0] ++
          WriteVarString 70016 (List.replicate 67108865 97)) ++ []) 70016 .base =
      .error (messageError "ReadVarString" "variable length string is too long") := by
  constructor
  · exact createStream_encode_ok 70016 .base _ (by decide) (by decide)
  · exact createStream_decode_policy_too_long 32000000 70016 .base _
      (List.replicate 67108865 97) []
      (by rw [List.length_replicate]; decide) (by rw [List.length_replicate]; decide)

/-- C6 witness: a 17-byte association ID with a short policy round-trips at
the default excessive block size, an empty ID and a 130-byte ID fail to
encode. -/
theorem claimC6_witness :
    MsgCreateStream.BsvEncode
        { AssociationID := [], StreamType := 0, StreamPolicyName := [] } 70016 .base =
      .error (messageError "MsgCreateStream.BsvEncode" "association ID must not be empty") ∧
    MsgCreateStream.BsvEncode
        { AssociationID := List.replicate 130 1, StreamType := 0, StreamPolicyName := [] }
        70016 .base =
      .error (messageError "MsgCreateStream.BsvEncode" "association ID too long") ∧
    (∃ out, MsgCreateStream.BsvEncode
        { AssociationID := [1, 2, 3, 4, 5, 6, 7, 8, 9, 10, 11, 12, 13, 14, 15, 16, 17], StreamType := 1, StreamPolicyName := [104, 105] } 70016 .base = .ok out ∧
      MsgCreateStream.Bsvdecode 32000000
        { AssociationID := [], StreamType := 0, StreamPolicyName := [] } (out ++ [9]) 70016 .base =
      .ok ({ AssociationID := [1, 2, 3, 4, 5, 6, 7, 8, 9, 10, 11, 12, 13, 14, 15, 16, 17], StreamType := 1, StreamPolicyName := [104, 105] }, [9])) := by
  refine ⟨(claimC6 32000000 70016 .base
      { AssociationID := [], StreamType := 0, StreamPolicyName := [] }
      { AssociationID := [], StreamType := 0, StreamPolicyName := [] } []).1 (by decide),
    (claimC6 32000000 70016 .base
      { AssociationID := List.replicate 130 1, StreamType := 0, StreamPolicyName := [] }
      { AssociationID := [], StreamType := 0, StreamPolicyName := [] } []).2.1 ?_,
    (claimC6 32000000 70016 .base
      { AssociationID := [1, 2, 3, 4, 5, 6, 7, 8, 9, 10, 11, 12, 13, 14, 15, 16, 17], StreamType := 1, StreamPolicyName := [104, 105] }
      { AssociationID := [], StreamType := 0, StreamPolicyName := [] } [9]).2.2
      (by decide) (by decide) (by decide) (by decide) (by decide)⟩
  have e : ({ AssociationID := List.replicate 130 1, StreamType := 0, StreamPolicyName := [] } : MsgCreateStream).AssociationID =
      List.replicate 130 1 := rfl
  rw [e, List.length_replicate]
  decide

theorem readUIntLE_append (b rest : List Nat) :
    readUIntLE b.length (b ++ rest) = .ok (fromLE b, rest) := by
  simp [readUIntLE, readBytes_append]

theorem readUIntLE_of_len (w : Nat) (b rest : List Nat) (h : b.length = w) :
    readUIntLE w (b ++ rest) = .ok (fromLE b, rest) := by
  subst h
  exact readUIntLE_append b rest

theorem readBlockHeader_append (pver : Nat) (b rest : List Nat) (h : b.length = 80) :
    readBlockHeader pver (b ++ rest) = .ok ({ bytes := b }, rest) := by
  rw [readBlockHeader, ← h, readBytes_append]

theorem ReadVarBytes_over (pver maxAllowed : Nat) (f : String) (r : List Nat)
    (fcount : Nat) (r6 : List Nat) (hv : ReadVarInt pver r = .ok (fcount, r6))
    (hgt : fcount > maxAllowed) :
    ReadVarBytes pver maxAllowed f r = .error (messageError "ReadVarBytes" f) := by
  rw [ReadVarBytes, hv]
  simp [hgt]

/-- C3: every bounded-list decode reads the varint count first and rejects
counts above the limit with a protocol error before reading any element
(the rejection holds for every continuation of the stream), and otherwise
reads exactly count elements: MsgNotFound against MaxInvPerMsg, and
MsgMerkleBlock against maxTxPerBlock() for hashes and
maxFlagsPerMerkleBlock() for flag bytes. -/
theorem claimC3 :
    (∀ (pver : Nat) (enc : MessageEncoding) (msg : MsgNotFound) (r : List Nat)
        (count : Nat) (rest : List Nat),
      ReadVarInt pver r = .ok (count, rest) → count > MaxInvPerMsg →
      MsgNotFound.Bsvdecode msg r pver enc =
        .error (messageError "MsgNotFound.Bsvdecode" "too many invvect in message")) ∧
    (∀ (pver : Nat) (enc : MessageEncoding) (msg : MsgNotFound)
        (ivs : List InvVect) (rest : List Nat),
      ivs.length ≤ MaxInvPerMsg →
      (∀ iv ∈ ivs, iv.InvType < 2 ^ 32 ∧ iv.Hash.length = 32) →
      MsgNotFound.Bsvdecode msg
          (WriteVarInt pver ivs.length ++ ((ivs.map (writeInvVect pver)).flatten ++ rest))
          pver enc =
        .ok ({ InvList := ivs }, rest)) ∧
    (∀ (maxTx pver : Nat) (enc : MessageEncoding) (msg : MsgMerkleBlock)
        (hdrB t4 r2 : List Nat) (count : Nat) (r3 : List Nat),
      hdrB.length = 80 → t4.length = 4 → BIP0037Version ≤ pver →
      ReadVarInt pver r2 = .ok (count, r3) → count > maxTx →
      MsgMerkleBlock.Bsvdecode maxTx msg (hdrB ++ (t4 ++ r2)) pver enc =
        .error (messageError "MsgMerkleBlock.Bsvdecode" "too many transaction hashes for message")) ∧
    (∀ (maxTx pver : Nat) (enc : MessageEncoding) (msg : MsgMerkleBlock)
        (hdrB t4 : List Nat) (hashes : List (List Nat)) (r5 : List Nat)
        (fcount : Nat) (r6 : List Nat),
      hdrB.length = 80 → t4.length = 4 → BIP0037Version ≤ pver →
      hashes.length ≤ maxTx → hashes.length < 2 ^ 64 →
      (∀ h ∈ hashes, h.length = 32) →
      ReadVarInt pver r5 = .ok (fcount, r6) →
      fcount > maxFlagsPerMerkleBlock maxTx →
      MsgMerkleBlock.Bsvdecode maxTx msg
          (hdrB ++ (t4 ++ (WriteVarInt pver hashes.length ++ (hashes.flatten ++ r5))))
          pver enc =
        .error (messageError "ReadVarBytes" "merkle block flags size")) ∧
    (∀ (maxTx pver : Nat) (enc : MessageEncoding) (msg : MsgMerkleBlock)
        (hdrB t4 : List Nat) (hashes : List (List Nat)) (flags rest : List Nat),
      hdrB.length = 80 → t4.length = 4 → BIP0037Version ≤ pver →
      hashes.length ≤ maxTx → hashes.length < 2 ^ 64 →
      (∀ h ∈ hashes, h.length = 32) →
      flags.length ≤ maxFlagsPerMerkleBlock maxTx → flags.length < 2 ^ 64 →
      MsgMerkleBlock.Bsvdecode maxTx msg
          (hdrB ++ (t4 ++ (WriteVarInt pver hashes.length ++
            (hashes.flatten ++ (WriteVarBytes pver flags ++ rest)))))
          pver enc =
        .ok ({ Header := { bytes := hdrB }, Transactions := fromLE t4, Hashes := hashes, Flags := flags }, rest)) := by
  refine ⟨?_, ?_, ?_, ?_, ?_⟩
  · intro pver enc msg r count rest hv hgt
    rw [MsgNotFound.Bsvdecode, hv]
    simp [hgt]
  · intro pver enc msg ivs rest hle hwf
    have h64 : ivs.length < 2 ^ 64 := by
      have : MaxInvPerMsg = 50000 := rfl
      omega
    rw [MsgNotFound.Bsvdecode, ReadVarInt_WriteVarInt pver ivs.length _ h64]
    simp only [gt_iff_lt, Nat.not_lt.mpr hle, if_false]
    simpa using MsgNotFound.readInvLoop_append pver ivs [] rest (by simpa using hle) hwf
  · intro maxTx pver enc msg hdrB t4 r2 count r3 h80 h4 hver hv hgt
    have hng : ¬ (pver < BIP0037Version) := by omega
    simp only [MsgMerkleBlock.Bsvdecode, if_neg hng,
      readBlockHeader_append pver hdrB (t4 ++ r2) h80,
      readUIntLE_of_len 4 t4 r2 h4, hv]
    rw [if_pos hgt]
  · intro maxTx pver enc msg hdrB t4 hashes r5 fcount r6 h80 h4 hver hle h64 hwf hv hgt
    have hng : ¬ (pver < BIP0037Version) := by omega
    have hloop := MsgMerkleBlock.readHashLoop_append maxTx hashes
      { Header := { bytes := hdrB }, Transactions := fromLE t4, Hashes := [], Flags := msg.Flags }
      r5 (by simpa using hle) hwf
    simp only [MsgMerkleBlock.Bsvdecode, if_neg hng,
      readBlockHeader_append pver hdrB _ h80,
      readUIntLE_of_len 4 t4 _ h4,
      ReadVarInt_WriteVarInt pver hashes.length _ h64]
    rw [if_neg (by omega)]
    simp only [hloop]
    rw [ReadVarBytes_over pver (maxFlagsPerMerkleBlock maxTx)
      "merkle block flags size" r5 fcount r6 hv hgt]
  · intro maxTx pver enc msg hdrB t4 hashes flags rest h80 h4 hver hle h64 hwf hfle hf64
    have hng : ¬ (pver < BIP0037Version) := by omega
    have hloop := MsgMerkleBlock.readHashLoop_append maxTx hashes
      { Header := { bytes := hdrB }, Transactions := fromLE t4, Hashes := [], Flags := msg.Flags }
      (WriteVarBytes pver flags ++ rest) (by simpa using hle) hwf
    simp only [MsgMerkleBlock.Bsvdecode, if_neg hng,
      readBlockHeader_append pver hdrB _ h80,
      readUIntLE_of_len 4 t4 _ h4,
      ReadVarInt_WriteVarInt pver hashes.length _ h64]
    rw [if_neg (by omega)]
    simp only [hloop]
    rw [ReadVarBytes_WriteVarBytes pver (maxFlagsPerMerkleBlock maxTx)
      "merkle block flags size" flags rest hfle hf64]
    simp

/-- C3 witness: concrete rejects and accepts: a notfound count of 50001 is
rejected and a single-vector notfound decodes exactly; a merkleblock hash
count of 2 against a limit of 1 is rejected, a flag count of 2 against a
limit of 1 is rejected, and a one-hash one-flag merkleblock decodes
exactly. -/
theorem claimC3_witness :
    MsgNotFound.Bsvdecode { InvList := [] } [253, 81, 195] 0 .base =
      .error (messageError "MsgNotFound.Bsvdecode" "too many invvect in message") ∧
    MsgNotFound.Bsvdecode { InvList := [] }
        (WriteVarInt 0 ([({ InvType := 1, Hash := List.replicate 32 5 } : InvVect)].length) ++
          (([({ InvType := 1, Hash := List.replicate 32 5 } : InvVect)].map (writeInvVect 0)).flatten ++ [9]))
        0 .base =
      .ok ({ InvList := [{ InvType := 1, Hash := List.replicate 32 5 }] }, [9]) ∧
    MsgMerkleBlock.Bsvdecode 1
        { Header := { bytes := [] }, Transactions := 0, Hashes := [], Flags := [] }
        (List.replicate 80 0 ++ ([0, 0, 0, 0] ++ [2])) 70001 .base =
      .error (messageError "MsgMerkleBlock.Bsvdecode" "too many transaction hashes for message") ∧
    MsgMerkleBlock.Bsvdecode 8
        { Header := { bytes := [] }, Transactions := 0, Hashes := [], Flags := [] }
        (List.replicate 80 0 ++ ([0, 0, 0, 0] ++
          (WriteVarInt 70001 ([List.replicate 32 3].length) ++
            ([List.replicate 32 3].flatten ++ [2])))) 70001 .base =
      .error (messageError "ReadVarBytes" "merkle block flags size") ∧
    MsgMerkleBlock.Bsvdecode 8
        { Header := { bytes := [] }, Transactions := 0, Hashes := [], Flags := [] }
        (List.replicate 80 0 ++ ([0, 0, 0, 0] ++
          (WriteVarInt 70001 ([List.replicate 32 3].length) ++
            ([List.replicate 32 3].flatten ++ (WriteVarBytes 70001 [7] ++ [4]))))) 70001 .base =
      .ok ({ Header := { bytes := List.replicate 80 0 }, Transactions := fromLE [0, 0, 0, 0], Hashes := [List.replicate 32 3], Flags := [7] }, [4]) := by
  refine ⟨claimC3.1 0 .base { InvList := [] } [253, 81, 195] 50001 [] rfl (by decide),
    claimC3.2.1 0 .base { InvList := [] } [{ InvType := 1, Hash := List.replicate 32 5 }] [9]
      (by decide) (by decide),
    claimC3.2.2.1 1 70001 .base
      { Header := { bytes := [] }, Transactions := 0, Hashes := [], Flags := [] }
      (List.replicate 80 0) [0, 0, 0, 0] [2] 2 [] (by simp) (by decide) (by decide)
      rfl (by decide),
    claimC3.2.2.2.1 8 70001 .base
      { Header := { bytes := [] }, Transactions := 0, Hashes := [], Flags := [] }
      (List.replicate 80 0) [0, 0, 0, 0] [List.replicate 32 3] [2] 2 []
      (by simp) (by decide) (by decide) (by decide) (by decide) (by decide)
      rfl (by decide),
    claimC3.2.2.2.2 8 70001 .base
      { Header := { bytes := [] }, Transactions := 0, Hashes := [], Flags := [] }
      (List.replicate 80 0) [0, 0, 0, 0] [List.replicate 32 3] [7] [4]
      (by simp) (by decide) (by decide) (by decide) (by decide) (by decide)
      (by decide) (by decide)⟩

end Wire
